import Mathlib

/-!
Verification of the statement-deployment orchestrator of the
click-stream pipeline repository (`flink_sql.py`, `run_pipeline.py`,
`config.py`).  Python strings are modelled as `List Char`; the remote
HTTP engine is modelled by explicit response values passed as
arguments; `requests` calls that may raise are modelled with `Except`.
-/

/-- Whitespace test used by Python `str.strip()` (ASCII subset). -/
def isPySpace (c : Char) : Bool :=
  c = ' ' || c = '\t' || c = '\n' || c = '\r' || c = '\x0b' || c = '\x0c'

/-- Python `str.strip()`: drop whitespace from both ends. -/
def pyStrip (l : List Char) : List Char :=
  ((l.dropWhile isPySpace).reverse.dropWhile isPySpace).reverse

/-- ASCII uppercasing of one character, as done by Python `str.upper()`. -/
def pyUpperChar (c : Char) : Char :=
  if 'a' ≤ c ∧ c ≤ 'z' then Char.ofNat (c.toNat - 32) else c

/-- ASCII lowercasing of one character, as done by Python `str.lower()`. -/
def pyLowerChar (c : Char) : Char :=
  if 'A' ≤ c ∧ c ≤ 'Z' then Char.ofNat (c.toNat + 32) else c

/-- Python substring test `pat in l`. -/
def containsSub (pat l : List Char) : Bool :=
  l.tails.any (fun t => pat.isPrefixOf t)

/-- Python `str.split(sep)` for a one-character separator: splits at every
occurrence, keeping empty parts (`''.split(';') = ['']`). -/
def pySplit (sep : Char) (l : List Char) : List (List Char) :=
  l.foldr
    (fun c acc =>
      if c = sep then [] :: acc
      else
        match acc with
        | a :: as => (c :: a) :: as
        | [] => [[c]])
    [[]]

/-- Python `str.replace(o :: os, new)` for a nonempty pattern: replace
non-overlapping occurrences left to right. -/
def pyReplaceAux (o : Char) (os new : List Char) : Nat → List Char → List Char
  | _, [] => []
  | Nat.succ k, _ :: rest => pyReplaceAux o os new k rest
  | 0, c :: rest =>
    if (o :: os).isPrefixOf (c :: rest) then
      new ++ pyReplaceAux o os new os.length rest
    else
      c :: pyReplaceAux o os new 0 rest

def pyReplace (o : Char) (os new l : List Char) : List Char :=
  pyReplaceAux o os new 0 l

/-- Decimal digit characters of a natural number, as produced by Python
`str(int)` for a non-negative int.  Fuel-based so that it is structurally
recursive (the fuel `n+1` always suffices). -/
def natDigitsAux : Nat → Nat → List Char → List Char
  | 0, _, acc => acc
  | Nat.succ fuel, n, acc =>
    let d := Nat.digitChar (n % 10)
    if n < 10 then d :: acc else natDigitsAux fuel (n / 10) (d :: acc)

def natDigits (n : Nat) : List Char :=
  natDigitsAux (n + 1) n []

/-! ## Template Resolver (`FlinkSQLManager.load_sql_files`) -/

/-- The SQL-verb keywords recognised by the statement filter
(`flink_sql.py` lines 88 and 96). -/
def SQL_KEYWORDS : List (List Char) :=
  ["INSERT".data, "CREATE".data, "SELECT".data, "UPDATE".data, "DELETE".data, "ALTER".data]

/-- The keyword-and-minimum-length filter applied to one (already
stripped) candidate statement: nonempty, contains a recognised keyword
in its uppercased text, and is longer than 50 characters. -/
def stmt_passes (stmt : List Char) : Bool :=
  (!stmt.isEmpty) &&
    SQL_KEYWORDS.any (fun kw => containsSub kw (stmt.map pyUpperChar)) &&
    stmt.length > 50

/-- Statement splitting of one SQL fragment (`flink_sql.py` lines 80-98):
a fragment with no semicolon is one candidate (stripped and filtered);
otherwise split on the semicolon and filter each stripped part. -/
def split_statements (sql_content : List Char) : List (List Char) :=
  if ¬ sql_content.contains ';' then
    let cleaned := pyStrip sql_content
    if stmt_passes cleaned then [cleaned] else []
  else
    ((pySplit ';' sql_content).map pyStrip).filter stmt_passes

/-- One Statement Unit: `{'name': ..., 'sql': ...}`. -/
structure StmtUnit where
  name : List Char
  sql : List Char
deriving DecidableEq

/-- Unit name for position `i` (0-based, as produced by `enumerate`):
`f"{sql_file}_part_{i+1}"` when the fragment yielded more than one
statement, the bare file name otherwise. -/
def part_name (sql_file : List Char) (count i : Nat) : List Char :=
  if count > 1 then sql_file ++ "_part_".data ++ natDigits (i + 1) else sql_file

/-- The `for i, stmt in enumerate(statements)` loop building the units. -/
def make_units (sql_file : List Char) (count : Nat) : Nat → List (List Char) → List StmtUnit
  | _, [] => []
  | i, s :: ss => ⟨part_name sql_file count i, s⟩ :: make_units sql_file count (i + 1) ss

/-- Statement Units contributed by one fragment (`load_sql_files` body
for a single file). -/
def load_fragment (sql_file sql_content : List Char) : List StmtUnit :=
  let stmts := split_statements sql_content
  make_units sql_file stmts.length 0 stmts

/-! ## Resource Naming Policy (`FlinkSQLManager.execute_statement`, lines 120-130) -/

/-- `statement_name.lower().replace('_','-').replace(' ','-').replace('.sql','')`. -/
def safe_name_of (statement_name : List Char) : List Char :=
  pyReplace '.' "sql".data []
    (pyReplace ' ' [] "-".data
      (pyReplace '_' [] "-".data
        (statement_name.map pyLowerChar)))

/-- Python slice `l[:n]`, with Python's negative-index semantics. -/
def pySliceTo (n : Int) (l : List Char) : List Char :=
  if 0 ≤ n then l.take n.toNat else l.take (l.length - (-n).toNat)

/-- The remote statement name: `f"{safe_name}-{int(time.time())}"`, truncating
only the base-name portion when the 100-character limit is exceeded
(`max_safe_length = 100 - len(str(int(time.time()))) - 1`). -/
def unique_name_of (statement_name : List Char) (ts : Nat) : List Char :=
  let safe_name := safe_name_of statement_name
  let unique := safe_name ++ '-' :: natDigits ts
  if unique.length > 100 then
    let max_safe_length : Int := 100 - (natDigits ts).length - 1
    let safe2 := pySliceTo max_safe_length safe_name
    safe2 ++ '-' :: natDigits ts
  else unique

/-- The character set `[a-z0-9-]` demanded for remote names. -/
def goodChar (c : Char) : Bool :=
  (97 ≤ c.toNat && c.toNat ≤ 122) || (48 ≤ c.toNat && c.toNat ≤ 57) || c = '-'

/-! ## Status Poller (`FlinkSQLManager.check_statement_status`) -/

/-- One response to `GET /statements/{id}`: HTTP status code, the reported
`status.phase` (already defaulted to `UNKNOWN` when absent) and the
`status.detail` text (already defaulted to `Unknown error`). -/
structure PollResp where
  status_code : Nat
  phase : String
  detail : String
deriving DecidableEq

/-- What one iteration of `check_statement_status` does: return a boolean,
or sleep the given number of seconds and re-query. -/
inductive StepResult
  | ret : Bool → StepResult
  | sleepRetry : Nat → StepResult
deriving DecidableEq

/-- One iteration of `check_statement_status` (lines 188-211); the second
component is the failure detail extracted from the body on FAILED. -/
def check_status_step (r : PollResp) : StepResult × Option String :=
  if r.status_code = 200 then
    if r.phase = "RUNNING" then (.ret true, none)
    else if r.phase = "COMPLETED" then (.ret true, none)
    else if r.phase = "FAILED" then (.ret false, some r.detail)
    else if r.phase = "PENDING" ∨ r.phase = "PROVISIONING" then (.sleepRetry 5, none)
    else (.ret true, none)
  else (.ret false, none)

/-- A poll response is non-terminal exactly when the query succeeded and the
phase is PENDING or PROVISIONING. -/
def nonterminal (r : PollResp) : Bool :=
  r.status_code = 200 && (r.phase = "PENDING" || r.phase = "PROVISIONING")

/-- The recursive poller, run against the stream of responses the server
would give to successive queries, observed for `n` iterations: `some b`
if it returns within `n` queries, `none` if it is still polling. -/
def runPoller (polls : Nat → PollResp) : Nat → Option Bool
  | 0 => none
  | Nat.succ n =>
    match (check_status_step (polls 0)).1 with
    | .ret b => some b
    | .sleepRetry _ => runPoller (fun k => polls (k + 1)) n

/-! ## Statement Submitter (`FlinkSQLManager.execute_statement`, lines 144-177) -/

/-- Response to `POST /statements`: HTTP status code and the
server-assigned `name` from the body. -/
structure HttpResp where
  status_code : Nat
  name : String
deriving DecidableEq

/-- Python return value of `execute_statement`: `False`, `True`, or the
statement-id string. -/
inductive ExecOutcome
  | failB : ExecOutcome
  | okB : ExecOutcome
  | handle : String → ExecOutcome
deriving DecidableEq

/-- `statement_sql.strip().upper()`. -/
def verb_head (sql : List Char) : List Char :=
  (pyStrip sql).map pyUpperChar

/-- `statement_sql.strip().upper().startswith(kw)`. -/
def sql_startswith (kw : List Char) (sql : List Char) : Bool :=
  kw.isPrefixOf (verb_head sql)

/-- `execute_statement` after the POST: given the create response and the
result of `check_statement_status` (as an oracle on statement ids),
produce the Python return value together with the list of statement ids
that were status-checked before returning. -/
def execute_statement (statement_sql : List Char) (resp : HttpResp)
    (statusCheck : String → Bool) : ExecOutcome × List String :=
  if resp.status_code = 200 ∨ resp.status_code = 201 then
    let statement_id := resp.name
    if statusCheck statement_id = false then (.failB, [statement_id])
    else if sql_startswith "INSERT".data statement_sql then (.handle statement_id, [statement_id])
    else (.okB, [statement_id])
  else if resp.status_code = 409 then (.okB, [])
  else (.failB, [])

/-! ## Deployment Sequencer (`FlinkSQLManager.deploy_pipeline`) -/

/-- The settle delay applied after a handle-returning submission
(lines 238-243), keyed by the SQL verb. -/
def settle_delay (sql : List Char) : Nat :=
  if sql_startswith "ALTER".data sql then 5
  else if sql_startswith "CREATE".data sql then 10
  else 8

/-- One unit as fed to the sequencer, with the behaviour the remote engine
exhibits for it: the create response, the result of the status check made
inside the submitter, and the result of the post-delay status check. -/
structure DUnit where
  name : String
  sql : List Char
  resp : HttpResp
  check1 : Bool
  check2 : Bool
deriving DecidableEq

/-- Observable outcome of `deploy_pipeline` over a unit list: overall
boolean, the name of the failing unit (if any), the names submitted (in
order), the ids status-checked inside the submitter, the settle delays
slept, the ids polled after a delay, and the tracked insert handles. -/
structure DeployOut where
  ok : Bool
  failed : Option String
  submitted : List String
  checks1 : List String
  settles : List Nat
  polled2 : List String
  inserts : List String
deriving DecidableEq

/-- Whether the insert-tracking condition of line 251 holds for a unit. -/
def tracks_insert (u : DUnit) : Bool :=
  "01_direct_insert".isPrefixOf u.name || containsSub "INSERT".data (u.sql.map pyUpperChar)

/-- The `for statement in self.statements` loop of `deploy_pipeline`
(lines 226-259). -/
def deploy_go : List DUnit → DeployOut
  | [] => ⟨true, none, [], [], [], [], []⟩
  | u :: rest =>
    let e := execute_statement u.sql u.resp (fun _ => u.check1)
    match e.1 with
    | .failB => ⟨false, some u.name, [u.name], e.2, [], [], []⟩
    | .okB =>
      let o := deploy_go rest
      ⟨o.ok, o.failed, u.name :: o.submitted, e.2 ++ o.checks1, o.settles,
        o.polled2, o.inserts⟩
    | .handle h =>
      let d := settle_delay u.sql
      if u.check2 = false then
        ⟨false, some u.name, [u.name], e.2, [d], [h], []⟩
      else
        let o := deploy_go rest
        ⟨o.ok, o.failed, u.name :: o.submitted, e.2 ++ o.checks1, d :: o.settles,
          h :: o.polled2, (if tracks_insert u then h :: o.inserts else o.inserts)⟩

/-- Whether one unit gets through its submission and (when a handle was
returned) its post-delay poll. -/
def unit_ok (u : DUnit) : Bool :=
  match (execute_statement u.sql u.resp (fun _ => u.check1)).1 with
  | .failB => false
  | .okB => true
  | .handle _ => u.check2

/-! ## Cleanup Coordinator (`FlinkSQLManager.cleanup_statements`) -/

/-- One entry of the `GET /v1/statements` listing. -/
structure ListedStmt where
  statement_handle : String
  status : String
deriving DecidableEq

/-- Handles of the listed statements whose status is RUNNING or PENDING. -/
def activeHandles (data : List ListedStmt) : List String :=
  (data.filter (fun s => s.status = "RUNNING" || s.status = "PENDING")).map
    (fun s => s.statement_handle)

/-- What `cleanup_statements` observably did: the handles for which a stop
request was issued, and the exception (if any) that reached the outer
`except` handler. -/
structure CleanupTrace where
  attempted : List String
  caught : Option String
deriving DecidableEq

/-- The stop loop (lines 276-293).  A stop response is a status code; a
raised request exception is an `Except.error`, which escapes the loop
(there is no per-statement handler) and is caught only by the outer
handler of `cleanup_statements`. -/
def cleanup_loop (stopResp : String → Except String Nat) :
    List ListedStmt → List String × Option String
  | [] => ([], none)
  | s :: rest =>
    if s.status = "RUNNING" ∨ s.status = "PENDING" then
      match stopResp s.statement_handle with
      | .error e => ([s.statement_handle], some e)
      | .ok _ =>
        let r := cleanup_loop stopResp rest
        (s.statement_handle :: r.1, r.2)
    else cleanup_loop stopResp rest

/-- `cleanup_statements` (lines 261-296): list the full remote collection,
stop every RUNNING/PENDING statement; any exception is caught by the
single outer handler and recorded, never propagated. -/
def cleanup_statements (listResp : Except String (Nat × List ListedStmt))
    (stopResp : String → Except String Nat) : CleanupTrace :=
  match listResp with
  | .error e => ⟨[], some e⟩
  | .ok (code, data) =>
    if code = 200 then
      let r := cleanup_loop stopResp data
      ⟨r.1, r.2⟩
    else ⟨[], none⟩

/-! ## Run identity and topic names (`config.py`) -/

/-- `f"input_{self.pipeline_id}"` (`config.get_topic_names`). -/
def topic_input (pipeline_id : List Char) : List Char :=
  "input_".data ++ pipeline_id

/-- `f"output_{self.pipeline_id}"` (`config.get_topic_names`). -/
def topic_output (pipeline_id : List Char) : List Char :=
  "output_".data ++ pipeline_id

/-! ## Runner exit paths (`run_pipeline.py`) -/

/-- How the body of `PipelineRunner.run_pipeline`'s `try` block ends. -/
inductive BodyEnd
  | completed : Bool → BodyEnd
  | raisedExc : BodyEnd
  | raisedInterrupt : BodyEnd
deriving DecidableEq

/-- `run_pipeline` (lines 50-116): ordinary exceptions are caught by its
`except Exception` (returning `False`); the `finally` always calls
`self.cleanup(full_cleanup=True)`; a `KeyboardInterrupt` propagates
(`none`) after the `finally` ran.  The list records the `full_cleanup`
flag of each `cleanup` call made, in order. -/
def run_pipeline_flow (e : BodyEnd) : Option Bool × List Bool :=
  match e with
  | .completed b => (some b, [true])
  | .raisedExc => (some false, [true])
  | .raisedInterrupt => (none, [true])

/-- `main` (lines 146-182): a propagated `KeyboardInterrupt` is caught and
answered with `runner.cleanup(full_cleanup=False)`.  Result: the
`full_cleanup` flags of every `cleanup` invocation of the whole run. -/
def main_cleanup_flags (e : BodyEnd) : List Bool :=
  match run_pipeline_flow e with
  | (some _, fs) => fs
  | (none, fs) => fs ++ [false]

/-- `PipelineRunner.cleanup` (lines 118-144) deletes the Kafka topics
exactly when called with `full_cleanup=True`; so over a run, topics are
deleted iff some cleanup call carried the flag. -/
def topics_deleted (e : BodyEnd) : Bool :=
  (main_cleanup_flags e).any (fun b => b)

/-- Every `cleanup` call stops the Flink statements (line 126), so the
number of statement-cleanup passes is the number of cleanup calls. -/
def flink_cleanups (e : BodyEnd) : Nat :=
  (main_cleanup_flags e).length

/-! ## Helper lemmas -/

lemma pySplit_no_sep (sep : Char) (l : List Char) (h : l.contains sep = false) :
    pySplit sep l = [l] := by
  induction l with
  | nil => rfl
  | cons c rest ih =>
    simp only [List.contains_cons, Bool.or_eq_false_iff, beq_eq_false_iff_ne] at h
    have hrest := ih (by simpa using h.2)
    simp only [pySplit, List.foldr_cons] at hrest ⊢
    rw [hrest]
    simp [Ne.symm h.1]

lemma split_statements_eq (s : List Char) :
    split_statements s = ((pySplit ';' s).map pyStrip).filter stmt_passes := by
  unfold split_statements
  by_cases h : s.contains ';'
  · rw [if_neg (not_not_intro h)]
  · rw [if_pos (by simpa using h), pySplit_no_sep ';' s (by simpa using h)]
    simp only [List.map_cons, List.map_nil, List.filter]
    by_cases hp : stmt_passes (pyStrip s) <;> simp [hp]

lemma make_units_length (f : List Char) (c : Nat) :
    ∀ (ss : List (List Char)) (i : Nat), (make_units f c i ss).length = ss.length := by
  intro ss
  induction ss with
  | nil => intro i; rfl
  | cons s ss ih => intro i; simp [make_units, ih]

lemma make_units_names (f : List Char) (c : Nat) :
    ∀ (ss : List (List Char)) (i : Nat),
      (make_units f c i ss).map StmtUnit.name =
        (List.range ss.length).map (fun j => part_name f c (i + j)) := by
  intro ss
  induction ss with
  | nil => intro i; rfl
  | cons s ss ih =>
    intro i
    simp only [make_units, List.map_cons, List.length_cons, List.range_succ_eq_map,
      List.map_map, ih]
    refine congrArg₂ _ (by simp) ?_
    apply List.map_congr_left
    intro j hj
    simp only [Function.comp]
    congr 1
    omega

/-- C1: For every SQL fragment whose text splits on the semicolon into parts
of which exactly K pass the keyword-and-minimum-length filter, the Template
Resolver emits exactly K Statement Units; when K > 1 the unit at 1-based
position i+1 is named `{file}_part_{i+1}`, and when K = 1 the single unit
keeps the fragment's base name unsuffixed. -/
theorem C1_resolver (file content : List Char) (K : Nat)
    (h : (((pySplit ';' content).map pyStrip).filter stmt_passes).length = K) :
    (load_fragment file content).length = K ∧
    (load_fragment file content).map StmtUnit.name =
      (List.range K).map
        (fun j => if 1 < K then file ++ "_part_".data ++ natDigits (j + 1) else file) := by
  have hs : (split_statements content).length = K := by rw [split_statements_eq]; exact h
  constructor
  · rw [load_fragment, make_units_length, hs]
  · rw [load_fragment, make_units_names, hs]
    apply List.map_congr_left
    intro j hj
    simp [part_name, hs, Nat.zero_add]

theorem C1_resolver_witness :
    (((pySplit ';' "CREATE TABLE t (x INT, y INT, z INT, aaaaaaaaaa INT) ;INSERT INTO t VALUES (1,2,3), (4,5,6), (7,8,9), (10,11)".data).map pyStrip).filter stmt_passes).length = 2 ∧
    ((load_fragment "f.sql".data "CREATE TABLE t (x INT, y INT, z INT, aaaaaaaaaa INT) ;INSERT INTO t VALUES (1,2,3), (4,5,6), (7,8,9), (10,11)".data).length = 2 ∧
     (load_fragment "f.sql".data "CREATE TABLE t (x INT, y INT, z INT, aaaaaaaaaa INT) ;INSERT INTO t VALUES (1,2,3), (4,5,6), (7,8,9), (10,11)".data).map StmtUnit.name =
       (List.range 2).map
         (fun j => if 1 < 2 then "f.sql".data ++ "_part_".data ++ natDigits (j + 1) else "f.sql".data)) :=
  ⟨by decide, C1_resolver _ _ 2 (by decide)⟩

/-- C3: one status query returns true on RUNNING, COMPLETED or any
unrecognised phase, returns false with the extracted detail on FAILED,
sleeps 5s and re-queries on PENDING/PROVISIONING, and returns false when
the query itself is not a 200. -/
theorem C3_status_step (r : PollResp) :
    (r.status_code = 200 →
      ((r.phase = "RUNNING" ∨ r.phase = "COMPLETED") →
        check_status_step r = (.ret true, none)) ∧
      (r.phase = "FAILED" → check_status_step r = (.ret false, some r.detail)) ∧
      ((r.phase = "PENDING" ∨ r.phase = "PROVISIONING") →
        check_status_step r = (.sleepRetry 5, none)) ∧
      (r.phase ∉ (["RUNNING", "COMPLETED", "FAILED", "PENDING", "PROVISIONING"] : List String) →
        check_status_step r = (.ret true, none))) ∧
    (r.status_code ≠ 200 → check_status_step r = (.ret false, none)) := by
  constructor
  · intro h200
    refine ⟨?_, ?_, ?_, ?_⟩
    · rintro (hp | hp) <;> simp [check_status_step, h200, hp]
    · intro hp; simp [check_status_step, h200, hp]
    · rintro (hp | hp) <;> simp [check_status_step, h200, hp]
    · intro hp
      simp only [List.mem_cons, List.mem_singleton, not_or] at hp
      obtain ⟨h1, h2, h3, h4, h5, -⟩ := hp
      simp [check_status_step, h200, h1, h2, h3, h4, h5]
  · intro h200; simp [check_status_step, h200]

theorem C3_status_step_witness :
    check_status_step ⟨200, "FAILED", "boom"⟩ = (.ret false, some "boom") :=
  ((C3_status_step ⟨200, "FAILED", "boom"⟩).1 (by decide)).2.1 (by decide)

lemma step_nonterminal (r : PollResp) (h : nonterminal r = true) :
    (check_status_step r).1 = .sleepRetry 5 := by
  simp only [nonterminal, Bool.and_eq_true, Bool.or_eq_true, decide_eq_true_eq] at h
  obtain ⟨h200, hp | hp⟩ := h <;> simp [check_status_step, h200, hp]

lemma step_terminal (r : PollResp) (h : nonterminal r = false) :
    ∃ b, (check_status_step r).1 = StepResult.ret b := by
  unfold check_status_step
  split_ifs with h1 h2 h3 h4 h5
  · exact ⟨true, rfl⟩
  · exact ⟨true, rfl⟩
  · exact ⟨false, rfl⟩
  · exfalso
    rw [nonterminal, h1] at h
    rcases h5 with hp | hp <;> simp [hp] at h
  · exact ⟨true, rfl⟩
  · exact ⟨false, rfl⟩

lemma poller_reaches (polls : Nat → PollResp) :
    ∀ k, nonterminal (polls k) = false → ∃ n b, runPoller polls n = some b := by
  intro k
  induction k generalizing polls with
  | zero =>
    intro hk
    obtain ⟨b, hb⟩ := step_terminal _ hk
    exact ⟨1, b, by simp [runPoller, hb]⟩
  | succ k ih =>
    intro hk
    by_cases h0 : nonterminal (polls 0) = true
    · obtain ⟨n, b, hn⟩ := ih (fun j => polls (j + 1)) hk
      refine ⟨n + 1, b, ?_⟩
      simp only [runPoller, step_nonterminal _ h0]
      exact hn
    · obtain ⟨b, hb⟩ := step_terminal _ (by simpa using h0)
      exact ⟨1, b, by simp [runPoller, hb]⟩

/-- C7: the poller has no retry bound: if some poll response is terminal
(leaves {PENDING, PROVISIONING} or is a non-200), the poller returns a
boolean within finitely many queries; if every response stays
non-terminal, it never returns, however long it is observed. -/
theorem C7_unbounded_poll (polls : Nat → PollResp) :
    ((∃ k, nonterminal (polls k) = false) → ∃ n b, runPoller polls n = some b) ∧
    ((∀ k, nonterminal (polls k) = true) → ∀ n, runPoller polls n = none) := by
  constructor
  · rintro ⟨k, hk⟩
    exact poller_reaches polls k hk
  · intro hall n
    induction n generalizing polls with
    | zero => rfl
    | succ n ih =>
      simp only [runPoller, step_nonterminal _ (hall 0)]
      exact ih (fun j => polls (j + 1)) (fun j => hall (j + 1))

theorem C7_unbounded_poll_witness :
    ∃ n b, runPoller (fun _ => ⟨404, "", ""⟩) n = some b :=
  (C7_unbounded_poll _).1 ⟨0, by decide⟩

/-- C9 (evaluation at the failing input): when the body of `run_pipeline`
is ended by a `KeyboardInterrupt` or by an unexpected exception, the
`finally` block still runs `cleanup(full_cleanup=True)`, so the Kafka
topics ARE deleted on those exit paths (the Flink-statement cleanup does
run); on an interrupt a second, non-deleting cleanup follows from `main`. -/
theorem C9_exit_path_eval :
    topics_deleted BodyEnd.raisedInterrupt = true ∧
    topics_deleted BodyEnd.raisedExc = true ∧
    main_cleanup_flags BodyEnd.raisedInterrupt = [true, false] ∧
    main_cleanup_flags BodyEnd.raisedExc = [true] ∧
    0 < flink_cleanups BodyEnd.raisedInterrupt ∧
    0 < flink_cleanups BodyEnd.raisedExc := by decide

lemma isPrefixOf_head_ne (c1 c2 : Char) (t1 t2 v : List Char) (hne : c1 ≠ c2)
    (h : (c1 :: t1).isPrefixOf v = true) : (c2 :: t2).isPrefixOf v = false := by
  cases v with
  | nil => simp [List.isPrefixOf] at h
  | cons b bs =>
    simp only [List.isPrefixOf, Bool.and_eq_true, beq_iff_eq] at h ⊢
    simp only [Bool.and_eq_false_iff, beq_eq_false_iff_ne]
    exact Or.inl (fun hc => hne (h.1 ▸ hc.symm ▸ rfl))

lemma settle_delay_insert (sql : List Char)
    (h : sql_startswith "INSERT".data sql = true) : settle_delay sql = 8 := by
  unfold sql_startswith at h
  unfold settle_delay sql_startswith
  rw [isPrefixOf_head_ne 'I' 'A' "NSERT".data "LTER".data (verb_head sql) (by decide) h,
    isPrefixOf_head_ne 'I' 'C' "NSERT".data "REATE".data (verb_head sql) (by decide) h]
  simp


lemma exec_2xx (sql : List Char) (resp : HttpResp) (check : String → Bool)
    (h : resp.status_code = 200 ∨ resp.status_code = 201) :
    execute_statement sql resp check =
      if check resp.name = false then (ExecOutcome.failB, [resp.name])
      else if sql_startswith "INSERT".data sql then
        (ExecOutcome.handle resp.name, [resp.name])
      else (ExecOutcome.okB, [resp.name]) := by
  unfold execute_statement
  rw [if_pos h]

lemma deploy_cons_fail (u : DUnit) (rest : List DUnit)
    (he : (execute_statement u.sql u.resp (fun _ => u.check1)).1 = ExecOutcome.failB) :
    deploy_go (u :: rest) =
      ⟨false, some u.name, [u.name],
        (execute_statement u.sql u.resp (fun _ => u.check1)).2, [], [], []⟩ := by
  simp only [deploy_go, he]

lemma deploy_cons_ok (u : DUnit) (rest : List DUnit)
    (he : (execute_statement u.sql u.resp (fun _ => u.check1)).1 = ExecOutcome.okB) :
    deploy_go (u :: rest) =
      ⟨(deploy_go rest).ok, (deploy_go rest).failed,
        u.name :: (deploy_go rest).submitted,
        (execute_statement u.sql u.resp (fun _ => u.check1)).2 ++ (deploy_go rest).checks1,
        (deploy_go rest).settles, (deploy_go rest).polled2, (deploy_go rest).inserts⟩ := by
  simp only [deploy_go, he]

lemma deploy_cons_handle_bad (u : DUnit) (rest : List DUnit) (h : String)
    (he : (execute_statement u.sql u.resp (fun _ => u.check1)).1 = ExecOutcome.handle h)
    (hc2 : u.check2 = false) :
    deploy_go (u :: rest) =
      ⟨false, some u.name, [u.name],
        (execute_statement u.sql u.resp (fun _ => u.check1)).2,
        [settle_delay u.sql], [h], []⟩ := by
  simp only [deploy_go, he, hc2, if_pos]

lemma deploy_cons_handle_good (u : DUnit) (rest : List DUnit) (h : String)
    (he : (execute_statement u.sql u.resp (fun _ => u.check1)).1 = ExecOutcome.handle h)
    (hc2 : u.check2 = true) :
    deploy_go (u :: rest) =
      ⟨(deploy_go rest).ok, (deploy_go rest).failed,
        u.name :: (deploy_go rest).submitted,
        (execute_statement u.sql u.resp (fun _ => u.check1)).2 ++ (deploy_go rest).checks1,
        settle_delay u.sql :: (deploy_go rest).settles,
        h :: (deploy_go rest).polled2,
        if tracks_insert u then h :: (deploy_go rest).inserts
        else (deploy_go rest).inserts⟩ := by
  simp only [deploy_go, he, hc2]
  rfl

/-- C2 (amended): on a fresh 2xx creation the submitter returns the
server-assigned handle to the sequencer only when the unit's SQL starts
with INSERT and the immediate status check passed; such a unit settles 8s
before its post-delay poll.  A fresh non-INSERT creation (e.g. CREATE or
ALTER) returns a plain boolean success, so the sequencer applies no
settle delay and no post-delay poll to it — the verb-keyed 5s/10s delay
branches are unreachable from the submitter's return values. -/
theorem C2_handle_and_settle (u : DUnit)
    (h2xx : u.resp.status_code = 200 ∨ u.resp.status_code = 201) :
    ((execute_statement u.sql u.resp (fun _ => u.check1)).1 = .handle u.resp.name ↔
      (u.check1 = true ∧ sql_startswith "INSERT".data u.sql = true)) ∧
    (sql_startswith "INSERT".data u.sql = true → settle_delay u.sql = 8) ∧
    (sql_startswith "INSERT".data u.sql = false →
      (deploy_go [u]).settles = [] ∧ (deploy_go [u]).polled2 = []) ∧
    (u.check1 = true → sql_startswith "INSERT".data u.sql = true →
      (deploy_go [u]).settles = [8] ∧ (deploy_go [u]).polled2 = [u.resp.name]) := by
  have hx := exec_2xx u.sql u.resp (fun _ => u.check1) h2xx
  refine ⟨?_, settle_delay_insert u.sql, ?_, ?_⟩
  · rw [hx]
    cases hc : u.check1 with
    | false => simp
    | true =>
      by_cases hi : sql_startswith "INSERT".data u.sql = true
      · simp [hi]
      · simp [hi]
  · intro hi
    cases hc : u.check1 with
    | false =>
      have he : (execute_statement u.sql u.resp (fun _ => u.check1)).1 = ExecOutcome.failB := by
        rw [hx]; simp [hc]
      rw [deploy_cons_fail u [] he]
      exact ⟨rfl, rfl⟩
    | true =>
      have he : (execute_statement u.sql u.resp (fun _ => u.check1)).1 = ExecOutcome.okB := by
        rw [hx]; simp [hc, hi]
      rw [deploy_cons_ok u [] he]
      exact ⟨rfl, rfl⟩
  · intro hc hi
    have he : (execute_statement u.sql u.resp (fun _ => u.check1)).1 =
        ExecOutcome.handle u.resp.name := by
      rw [hx]; simp [hc, hi]
    cases h2 : u.check2 with
    | false =>
      rw [deploy_cons_handle_bad u [] u.resp.name he h2, settle_delay_insert u.sql hi]
      exact ⟨rfl, rfl⟩
    | true =>
      rw [deploy_cons_handle_good u [] u.resp.name he h2, settle_delay_insert u.sql hi]
      exact ⟨rfl, rfl⟩

theorem C2_counterexample :
    ((execute_statement "CREATE TABLE clicks (x INT)".data ⟨201, "stmt-1"⟩
        (fun _ => true)).1 = ExecOutcome.okB ∧
      (execute_statement "CREATE TABLE clicks (x INT)".data ⟨201, "stmt-1"⟩
        (fun _ => true)).1 ≠ ExecOutcome.handle "stmt-1") ∧
    (deploy_go [⟨"01_create.sql", "CREATE TABLE clicks (x INT)".data,
        ⟨201, "stmt-1"⟩, true, true⟩]).settles = [] ∧
    (deploy_go [⟨"01_create.sql", "CREATE TABLE clicks (x INT)".data,
        ⟨201, "stmt-1"⟩, true, true⟩]).polled2 = [] := by decide

theorem C2_handle_and_settle_witness :
    ((⟨"02_insert.sql", "INSERT INTO t SELECT 1".data, ⟨201, "stmt-2"⟩, true, true⟩ :
        DUnit).resp.status_code = 200 ∨
      (⟨"02_insert.sql", "INSERT INTO t SELECT 1".data, ⟨201, "stmt-2"⟩, true, true⟩ :
        DUnit).resp.status_code = 201) ∧
    (deploy_go [(⟨"02_insert.sql", "INSERT INTO t SELECT 1".data, ⟨201, "stmt-2"⟩,
        true, true⟩ : DUnit)]).settles = [8] ∧
    (deploy_go [(⟨"02_insert.sql", "INSERT INTO t SELECT 1".data, ⟨201, "stmt-2"⟩,
        true, true⟩ : DUnit)]).polled2 = ["stmt-2"] :=
  ⟨Or.inr rfl,
    (C2_handle_and_settle _ (Or.inr rfl)).2.2.2 rfl (by decide)⟩

/-- C10: after every fresh 2xx creation the submitter performs exactly one
status check, on the new statement, before returning; if that first check
reports failure (as a FAILED first poll does), the submission itself is
reported failed; a fresh INSERT creation is status-checked once inside
the submitter, then the sequencer settles 8s and polls the handle again. -/
theorem C10_immediate_check (u : DUnit)
    (h2xx : u.resp.status_code = 200 ∨ u.resp.status_code = 201) :
    (execute_statement u.sql u.resp (fun _ => u.check1)).2 = [u.resp.name] ∧
    (u.check1 = false →
      (execute_statement u.sql u.resp (fun _ => u.check1)).1 = .failB) ∧
    (∀ d, (check_status_step ⟨200, "FAILED", d⟩).1 = .ret false) ∧
    (u.check1 = true → sql_startswith "INSERT".data u.sql = true →
      (deploy_go [u]).checks1 = [u.resp.name] ∧
      (deploy_go [u]).settles = [8] ∧
      (deploy_go [u]).polled2 = [u.resp.name]) := by
  have hx := exec_2xx u.sql u.resp (fun _ => u.check1) h2xx
  refine ⟨?_, ?_, fun d => rfl, ?_⟩
  · rw [hx]
    cases hc : u.check1 with
    | false => simp
    | true =>
      by_cases hi : sql_startswith "INSERT".data u.sql = true <;> simp [hi]
  · intro hc; rw [hx]; simp [hc]
  · intro hc hi
    have he : (execute_statement u.sql u.resp (fun _ => u.check1)).1 =
        ExecOutcome.handle u.resp.name := by
      rw [hx]; simp [hc, hi]
    have h2 : (execute_statement u.sql u.resp (fun _ => u.check1)).2 = [u.resp.name] := by
      rw [hx]; simp [hc, hi]
    cases hc2 : u.check2 with
    | false =>
      rw [deploy_cons_handle_bad u [] u.resp.name he hc2, settle_delay_insert u.sql hi]
      exact ⟨h2, rfl, rfl⟩
    | true =>
      rw [deploy_cons_handle_good u [] u.resp.name he hc2, settle_delay_insert u.sql hi]
      refine ⟨?_, rfl, rfl⟩
      simpa [deploy_go] using h2
  
theorem C10_immediate_check_witness :
    (execute_statement "INSERT INTO t SELECT 1".data ⟨200, "stmt-9"⟩
      (fun _ => false)).2 = ["stmt-9"] ∧
    (execute_statement "INSERT INTO t SELECT 1".data ⟨200, "stmt-9"⟩
      (fun _ => false)).1 = .failB :=
  ⟨(C10_immediate_check ⟨"02_insert.sql", "INSERT INTO t SELECT 1".data,
      ⟨200, "stmt-9"⟩, false, true⟩ (Or.inl rfl)).1,
    (C10_immediate_check ⟨"02_insert.sql", "INSERT INTO t SELECT 1".data,
      ⟨200, "stmt-9"⟩, false, true⟩ (Or.inl rfl)).2.1 rfl⟩

lemma deploy_ok_iff (us : List DUnit) :
    (deploy_go us).ok = true ↔ us.all unit_ok = true := by
  induction us with
  | nil => simp [deploy_go]
  | cons u rest ih =>
    cases he : (execute_statement u.sql u.resp (fun _ => u.check1)).1 with
    | failB =>
      rw [deploy_cons_fail u rest he]
      simp [unit_ok, he]
    | okB =>
      rw [deploy_cons_ok u rest he]
      simp [unit_ok, he, ih]
    | handle h =>
      cases hc2 : u.check2 with
      | false =>
        rw [deploy_cons_handle_bad u rest h he hc2]
        simp [unit_ok, he, hc2]
      | true =>
        rw [deploy_cons_handle_good u rest h he hc2]
        simp [unit_ok, he, hc2, ih]

lemma deploy_first_fail :
    ∀ (us : List DUnit) (i : Nat) (hi : i < us.length),
      (us.take i).all unit_ok = true → unit_ok (us.get ⟨i, hi⟩) = false →
      (deploy_go us).ok = false ∧
      (deploy_go us).failed = some (us.get ⟨i, hi⟩).name ∧
      (deploy_go us).submitted = (us.take (i + 1)).map DUnit.name := by
  intro us
  induction us with
  | nil => intro i hi; simp at hi
  | cons u rest ih =>
    intro i hi htake hfail
    cases i with
    | zero =>
      have hu : unit_ok u = false := hfail
      unfold unit_ok at hu
      cases he : (execute_statement u.sql u.resp (fun _ => u.check1)).1 with
      | failB =>
        rw [deploy_cons_fail u rest he]
        exact ⟨rfl, rfl, rfl⟩
      | okB => rw [he] at hu; simp at hu
      | handle h =>
        rw [he] at hu
        rw [deploy_cons_handle_bad u rest h he hu]
        exact ⟨rfl, rfl, rfl⟩
    | succ i =>
      rw [List.take_succ_cons, List.all_cons, Bool.and_eq_true] at htake
      have htu : unit_ok u = true := htake.1
      have htr : (rest.take i).all unit_ok = true := htake.2
      have hir : i < rest.length := by simpa using hi
      have hfr : unit_ok (rest.get ⟨i, hir⟩) = false := hfail
      obtain ⟨h1, h2, h3⟩ := ih i hir htr hfr
      unfold unit_ok at htu
      cases he : (execute_statement u.sql u.resp (fun _ => u.check1)).1 with
      | failB => rw [he] at htu; simp at htu
      | okB =>
        rw [deploy_cons_ok u rest he]
        exact ⟨h1, h2, by simp [h3]⟩
      | handle h =>
        rw [he] at htu
        rw [deploy_cons_handle_good u rest h he htu]
        exact ⟨h1, h2, by simp [h3]⟩

/-- C5: the sequencer aborts at the first failing unit — if every unit
before position i succeeds and unit i fails its submission or its poll,
nothing after i is submitted and the failure is reported with unit i's
name — and the whole deployment returns success exactly when every unit
passes submission and its status checks. -/
theorem C5_first_failure (us : List DUnit) :
    ((deploy_go us).ok = true ↔ us.all unit_ok = true) ∧
    (∀ i (hi : i < us.length),
      (us.take i).all unit_ok = true → unit_ok (us.get ⟨i, hi⟩) = false →
      (deploy_go us).ok = false ∧
      (deploy_go us).failed = some (us.get ⟨i, hi⟩).name ∧
      (deploy_go us).submitted = (us.take (i + 1)).map DUnit.name) :=
  ⟨deploy_ok_iff us, fun i hi => deploy_first_fail us i hi⟩

theorem C5_first_failure_witness :
    (([⟨"00_alter.sql", "ALTER TABLE t SET x".data, ⟨409, "s0"⟩, true, true⟩,
       ⟨"01_create.sql", "CREATE TABLE t (x INT)".data, ⟨500, "s1"⟩, true, true⟩,
       ⟨"02_insert.sql", "INSERT INTO t SELECT 1".data, ⟨201, "s2"⟩, true, true⟩] :
        List DUnit).take 1).all unit_ok = true ∧
    (deploy_go [⟨"00_alter.sql", "ALTER TABLE t SET x".data, ⟨409, "s0"⟩, true, true⟩,
       ⟨"01_create.sql", "CREATE TABLE t (x INT)".data, ⟨500, "s1"⟩, true, true⟩,
       ⟨"02_insert.sql", "INSERT INTO t SELECT 1".data, ⟨201, "s2"⟩, true, true⟩]).ok
        = false ∧
    (deploy_go [⟨"00_alter.sql", "ALTER TABLE t SET x".data, ⟨409, "s0"⟩, true, true⟩,
       ⟨"01_create.sql", "CREATE TABLE t (x INT)".data, ⟨500, "s1"⟩, true, true⟩,
       ⟨"02_insert.sql", "INSERT INTO t SELECT 1".data, ⟨201, "s2"⟩, true, true⟩]).failed
        = some "01_create.sql" ∧
    (deploy_go [⟨"00_alter.sql", "ALTER TABLE t SET x".data, ⟨409, "s0"⟩, true, true⟩,
       ⟨"01_create.sql", "CREATE TABLE t (x INT)".data, ⟨500, "s1"⟩, true, true⟩,
       ⟨"02_insert.sql", "INSERT INTO t SELECT 1".data, ⟨201, "s2"⟩, true, true⟩]).submitted
        = ["00_alter.sql", "01_create.sql"] :=
  ⟨by decide,
    (C5_first_failure _).2 1 (by decide) (by decide) (by decide)⟩

lemma digitChar_range (d : Nat) (hd : d < 10) :
    48 ≤ (Nat.digitChar d).toNat ∧ (Nat.digitChar d).toNat ≤ 57 := by
  interval_cases d <;> decide

lemma natDigitsAux_digits :
    ∀ (fuel n : Nat) (acc : List Char) (c : Char), c ∈ natDigitsAux fuel n acc →
      c ∈ acc ∨ (48 ≤ c.toNat ∧ c.toNat ≤ 57) := by
  intro fuel
  induction fuel with
  | zero => intro n acc c hc; exact Or.inl hc
  | succ fuel ih =>
    intro n acc c hc
    simp only [natDigitsAux] at hc
    by_cases hn : n < 10
    · rw [if_pos hn] at hc
      rcases List.mem_cons.mp hc with hc | hc
      · exact Or.inr (hc ▸ digitChar_range (n % 10) (Nat.mod_lt n (by omega)))
      · exact Or.inl hc
    · rw [if_neg hn] at hc
      rcases ih (n / 10) (Nat.digitChar (n % 10) :: acc) c hc with hc | hc
      · rcases List.mem_cons.mp hc with hc | hc
        · exact Or.inr (hc ▸ digitChar_range (n % 10) (Nat.mod_lt n (by omega)))
        · exact Or.inl hc
      · exact Or.inr hc

lemma natDigits_digits (n : Nat) :
    ∀ c ∈ natDigits n, 48 ≤ c.toNat ∧ c.toNat ≤ 57 := by
  intro c hc
  rcases natDigitsAux_digits (n + 1) n [] c hc with hc | hc
  · simp at hc
  · exact hc

lemma goodChar_of_digit (c : Char) (h1 : 48 ≤ c.toNat) (h2 : c.toNat ≤ 57) :
    goodChar c = true := by
  simp only [goodChar, Bool.or_eq_true, Bool.and_eq_true, decide_eq_true_eq]
  exact Or.inl (Or.inr ⟨h1, h2⟩)

lemma all_take_of_all (p : Char → Bool) (l : List Char) (k : Nat)
    (h : l.all p = true) : (l.take k).all p = true := by
  rw [List.all_eq_true] at h ⊢
  exact fun c hc => h c (List.mem_of_mem_take hc)

/-- C4 (amended): for every base name and every timestamp whose decimal
form has at most 99 digits, the generated remote name has length ≤ 100
and is a prefix of the normalised base name followed by a hyphen and the
timestamp's decimal digits (so only the base portion is ever truncated
and the numeric timestamp suffix is kept intact); and provided the
normalised base name (lowercased, `_`/space replaced by `-`, `.sql`
removed) contains only characters from [a-z0-9-], so does the whole
output.  The charset and length bounds do NOT hold for arbitrary base
names/timestamps (see the counterexample). -/
theorem C4_naming_policy (nm : List Char) (ts : Nat)
    (hts : (natDigits ts).length ≤ 99) :
    (unique_name_of nm ts).length ≤ 100 ∧
    (∃ b, b <+: safe_name_of nm ∧ unique_name_of nm ts = b ++ '-' :: natDigits ts) ∧
    (∀ c ∈ natDigits ts, 48 ≤ c.toNat ∧ c.toNat ≤ 57) ∧
    ((safe_name_of nm).all goodChar = true →
      (unique_name_of nm ts).all goodChar = true) := by
  have hdig := natDigits_digits ts
  by_cases hlen : (safe_name_of nm ++ '-' :: natDigits ts).length > 100
  · have hname : unique_name_of nm ts =
        (safe_name_of nm).take (100 - ((natDigits ts).length : Int) - 1).toNat
          ++ '-' :: natDigits ts := by
      simp only [unique_name_of]
      rw [if_pos hlen]
      simp only [pySliceTo]
      rw [if_pos (by omega : (0 : Int) ≤ 100 - ((natDigits ts).length : Int) - 1)]
    refine ⟨?_, ⟨_, ⟨(safe_name_of nm).drop _, List.take_append_drop _ _⟩, hname⟩, hdig, ?_⟩
    · rw [hname]
      have hmin := List.length_take
        (100 - ((natDigits ts).length : Int) - 1).toNat (safe_name_of nm)
      simp only [List.length_append, List.length_cons]
      omega
    · intro hall
      rw [hname]
      simp only [List.all_append, List.all_cons, Bool.and_eq_true]
      refine ⟨all_take_of_all _ _ _ hall, by decide, ?_⟩
      rw [List.all_eq_true]
      exact fun c hc => goodChar_of_digit c (hdig c hc).1 (hdig c hc).2
  · have hname : unique_name_of nm ts = safe_name_of nm ++ '-' :: natDigits ts := by
      simp only [unique_name_of]
      rw [if_neg hlen]
    refine ⟨?_, ⟨safe_name_of nm, ⟨[], List.append_nil _⟩, hname⟩, hdig, ?_⟩
    · rw [hname]; omega
    · intro hall
      rw [hname]
      simp only [List.all_append, List.all_cons, Bool.and_eq_true]
      refine ⟨hall, by decide, ?_⟩
      rw [List.all_eq_true]
      exact fun c hc => goodChar_of_digit c (hdig c hc).1 (hdig c hc).2

/-- C4 fails as stated for arbitrary inputs: a base name with a character
outside [a-z0-9-] survives normalisation into the output, and a
timestamp of 101 decimal digits defeats the 100-character bound because
`safe_name[:max_safe_length]` with a negative bound keeps base text while
the suffix alone overflows. -/
theorem C4_counterexample :
    (unique_name_of "a@b".data 5).all goodChar = false ∧
    (unique_name_of "x".data (10 ^ 100)).length > 100 := by decide

theorem C4_naming_policy_witness :
    (natDigits 1712345678).length ≤ 99 ∧
    ((unique_name_of "01_create_tables.sql_part_1".data 1712345678).length ≤ 100 ∧
     (∃ b, b <+: safe_name_of "01_create_tables.sql_part_1".data ∧
       unique_name_of "01_create_tables.sql_part_1".data 1712345678 =
         b ++ '-' :: natDigits 1712345678) ∧
     (∀ c ∈ natDigits 1712345678, 48 ≤ c.toNat ∧ c.toNat ≤ 57) ∧
     ((safe_name_of "01_create_tables.sql_part_1".data).all goodChar = true →
       (unique_name_of "01_create_tables.sql_part_1".data 1712345678).all goodChar = true)) :=
  ⟨by decide, C4_naming_policy _ _ (by decide)⟩

lemma active_cons_true (s : ListedStmt) (rest : List ListedStmt)
    (hs : s.status = "RUNNING" ∨ s.status = "PENDING") :
    activeHandles (s :: rest) = s.statement_handle :: activeHandles rest := by
  have hb : (s.status = "RUNNING" || s.status = "PENDING") = true := by
    rcases hs with h | h <;> simp [h]
  simp [activeHandles, List.filter_cons, hb]

lemma active_cons_false (s : ListedStmt) (rest : List ListedStmt)
    (hs : ¬ (s.status = "RUNNING" ∨ s.status = "PENDING")) :
    activeHandles (s :: rest) = activeHandles rest := by
  have hb : (s.status = "RUNNING" || s.status = "PENDING") = false := by
    push_neg at hs
    simp [hs.1, hs.2]
  simp [activeHandles, List.filter_cons, hb]

lemma cleanup_loop_all_ok (stopResp : String → Except String Nat)
    (hok : ∀ h, ∃ c, stopResp h = Except.ok c) :
    ∀ data : List ListedStmt, cleanup_loop stopResp data = (activeHandles data, none) := by
  intro data
  induction data with
  | nil => rfl
  | cons s rest ih =>
    by_cases hs : s.status = "RUNNING" ∨ s.status = "PENDING"
    · obtain ⟨c, hc⟩ := hok s.statement_handle
      rw [cleanup_loop, if_pos hs, hc, ih, active_cons_true s rest hs]
    · rw [cleanup_loop, if_neg hs, ih, active_cons_false s rest hs]

lemma cleanup_loop_pre (stopResp : String → Except String Nat) :
    ∀ data : List ListedStmt, (cleanup_loop stopResp data).1 <+: activeHandles data := by
  intro data
  induction data with
  | nil => exact ⟨[], rfl⟩
  | cons s rest ih =>
    by_cases hs : s.status = "RUNNING" ∨ s.status = "PENDING"
    · rw [active_cons_true s rest hs]
      cases hstop : stopResp s.statement_handle with
      | error e =>
        rw [cleanup_loop, if_pos hs, hstop]
        exact ⟨activeHandles rest, rfl⟩
      | ok c =>
        rw [cleanup_loop, if_pos hs, hstop]
        obtain ⟨t, ht⟩ := ih
        exact ⟨t, by rw [List.cons_append, ht]⟩
    · rw [cleanup_loop, if_neg hs, active_cons_false s rest hs]
      exact ih

/-- C8 (amended): cleanup never lets an exception past its boundary — a
listing exception or a raised stop request ends in the outer handler,
yielding a normal return.  A stop request that FAILS WITH A non-200
RESPONSE is logged and skipped and all remaining active statements are
still attempted (when no request raises, every active statement gets a
stop attempt, whatever the response codes); but a stop request that
RAISES aborts the loop, so the attempted stops are only a prefix of the
active list.  With zero active statements, zero stop requests are
issued. -/
theorem C8_cleanup_boundary (listResp : Except String (Nat × List ListedStmt))
    (stopResp : String → Except String Nat) :
    (∀ e, listResp = .error e → cleanup_statements listResp stopResp = ⟨[], some e⟩) ∧
    (∀ code data, listResp = .ok (code, data) → code ≠ 200 →
      cleanup_statements listResp stopResp = ⟨[], none⟩) ∧
    (∀ data, listResp = .ok (200, data) →
      ((cleanup_statements listResp stopResp).attempted <+: activeHandles data) ∧
      ((∀ h, ∃ c, stopResp h = Except.ok c) →
        (cleanup_statements listResp stopResp).attempted = activeHandles data) ∧
      (activeHandles data = [] →
        (cleanup_statements listResp stopResp).attempted = [])) := by
  refine ⟨?_, ?_, ?_⟩
  · intro e he; rw [he]; rfl
  · intro code data he hcode
    rw [he]
    simp only [cleanup_statements]
    rw [if_neg hcode]
  · intro data he
    rw [he]
    have hatt : (cleanup_statements (Except.ok (200, data)) stopResp).attempted =
        (cleanup_loop stopResp data).1 := by
      simp only [cleanup_statements, if_true]
    refine ⟨?_, ?_, ?_⟩
    · rw [hatt]; exact cleanup_loop_pre stopResp data
    · intro hok
      rw [hatt, cleanup_loop_all_ok stopResp hok data]
    · intro hempty
      rw [hatt]
      have hpre := cleanup_loop_pre stopResp data
      rw [hempty] at hpre
      obtain ⟨t, ht⟩ := hpre
      exact (List.append_eq_nil.mp ht).1

/-- C8 fails as stated: with two active statements, a stop request for
the first that raises an exception is caught only by the outer handler,
so the second active statement is never attempted. -/
theorem C8_counterexample :
    (cleanup_statements
        (Except.ok (200, [⟨"h1", "RUNNING"⟩, ⟨"h2", "PENDING"⟩]))
        (fun h => if h = "h1" then Except.error "connection reset" else Except.ok 200)
      ).attempted = ["h1"] ∧
    activeHandles [⟨"h1", "RUNNING"⟩, ⟨"h2", "PENDING"⟩] = ["h1", "h2"] := by
  constructor
  · rfl
  · rfl

theorem C8_cleanup_boundary_witness :
    (Except.ok (200, ([⟨"h1", "RUNNING"⟩] : List ListedStmt)) =
      (Except.ok (200, ([⟨"h1", "RUNNING"⟩] : List ListedStmt)) :
        Except String (Nat × List ListedStmt))) ∧
    (cleanup_statements (Except.ok (200, [⟨"h1", "RUNNING"⟩]))
        (fun _ => Except.ok 200)).attempted = activeHandles [⟨"h1", "RUNNING"⟩] :=
  ⟨rfl, ((C8_cleanup_boundary (Except.ok (200, [⟨"h1", "RUNNING"⟩]))
      (fun _ => Except.ok 200)).2.2 [⟨"h1", "RUNNING"⟩] rfl).2.1
    (fun _ => ⟨200, rfl⟩)⟩

/-- C6 (amended): the run identity is embedded in the Kafka topic names,
but a generated statement name embeds only a per-submission timestamp —
not the run identity — and the Cleanup Coordinator stops every listed
statement whose reported status is RUNNING or PENDING, with no filtering
by recorded handle or run identity. -/
theorem C6_cleanup_scope (pid : List Char) (data : List ListedStmt)
    (stopResp : String → Except String Nat)
    (hok : ∀ h, ∃ c, stopResp h = Except.ok c) :
    pid <:+ topic_input pid ∧ pid <:+ topic_output pid ∧
    (cleanup_statements (Except.ok (200, data)) stopResp).attempted =
      activeHandles data := by
  refine ⟨⟨"input_".data, rfl⟩, ⟨"output_".data, rfl⟩, ?_⟩
  have hatt : (cleanup_statements (Except.ok (200, data)) stopResp).attempted =
      (cleanup_loop stopResp data).1 := by
    simp only [cleanup_statements, if_true]
  rw [hatt, cleanup_loop_all_ok stopResp hok data]

/-- C6 fails as stated: the cleanup of a run whose identity is
`pipeline_1700000000` stops a RUNNING statement it never created (its
handle was never recorded by this run and its name does not carry the
identity), and the name generated for this run's own statement does not
contain the run identity either — only a submission timestamp. -/
theorem C6_counterexample :
    (cleanup_statements
        (Except.ok (200, [⟨"foreign-stmt-123", "RUNNING"⟩]))
        (fun _ => Except.ok 200)).attempted = ["foreign-stmt-123"] ∧
    containsSub "pipeline_1700000000".data
      (unique_name_of "01_create_tables.sql".data 1700000099) = false ∧
    containsSub "pipeline-1700000000".data
      (unique_name_of "01_create_tables.sql".data 1700000099) = false := by
  refine ⟨rfl, by decide, by decide⟩

theorem C6_cleanup_scope_witness :
    ("run-7".data <:+ topic_input "run-7".data ∧
      "run-7".data <:+ topic_output "run-7".data ∧
      (cleanup_statements (Except.ok (200, [⟨"h1", "RUNNING"⟩]))
          (fun _ => Except.ok 200)).attempted =
        activeHandles [⟨"h1", "RUNNING"⟩]) :=
  C6_cleanup_scope "run-7".data [⟨"h1", "RUNNING"⟩] (fun _ => Except.ok 200)
    (fun _ => ⟨200, rfl⟩)
